import Mathlib

/-!
Verification development for the Tumblr → Bluesky crossposter
(`tumsky_cross.py`). The media-resolution pipeline, the size-negotiation
paths and the relevant part of the main loop are embedded shallowly as
executable Lean definitions, and the behavioural claims about them are
settled as theorems below the definitions.

Conventions of the embedding:
* byte strings are reduced to their length plus an abstract content tag,
  since the program only ever branches on `len(data)` and otherwise treats
  media payloads opaquely;
* the external processes (`convert`, `ffmpeg`) are an oracle parameter of
  type `Runner` receiving the fixed command-line arguments the code
  builds; `none` models a raised exception / non-zero exit;
* the two regular expressions used for scraping HTML fragments are
  implemented over `List Char` with the same greedy/backtracking
  semantics Python's `re` gives them.
-/

/-- Byte payloads: the length in bytes plus an abstract tag distinguishing
different contents of equal length. -/
structure Bytes where
  size : Nat
  tag : Nat
deriving DecidableEq

/-- External-process oracle: given the command-line option list the code
assembles and the input payload, return the produced payload, or `none`
when the invocation fails (missing binary, non-zero exit, unreadable
output file). -/
def Runner : Type := List String → Bytes → Option Bytes

/-! ## Regex scanners

`tumsky_cross.py` uses two patterns on HTML fragments:
`<img[^>]+src="([^"]+)"` with `re.findall` (lines 160, 226) and
`src="([^"]+\.mp4)"` with `re.search` (lines 190, 196, 236). -/

/-- Match the regex fragment consisting of a nonempty run of non-quote
characters followed by a closing double quote at the head of `t`
(the capturing group of both patterns). Returns the captured characters
and the remainder after the closing quote. -/
def captureQuoted (t : List Char) : Option (List Char × List Char) :=
  let cap := t.takeWhile (fun c => c ≠ '"')
  match t.drop cap.length with
  | '"' :: rest => if cap.length = 0 then none else some (cap, rest)
  | _ => none

/-- Backtracking for the greedy one-or-more non-close-bracket run in the
img pattern: try consuming `k` characters before the literal letters
`src="` starting from the largest candidate, exactly as the regex engine
backtracks from the longest run. -/
def imgSrcTryK (rest : List Char) : Nat → Option (List Char × List Char)
  | 0 => none
  | Nat.succ k =>
    if ("src=\"".toList).isPrefixOf (rest.drop (k + 1)) then
      match captureQuoted ((rest.drop (k + 1)).drop 5) with
      | some r => some r
      | none => imgSrcTryK rest k
    else imgSrcTryK rest k

/-- One attempt of the img pattern at the head of `s`: the literal `<img`,
then at least one non-close-bracket character, then `src="`, then the
captured url. Returns the capture and the rest of the input after the
match. -/
def imgSrcAttempt (s : List Char) : Option (List Char × List Char) :=
  if ("<img".toList).isPrefixOf s then
    imgSrcTryK (s.drop 4) ((s.drop 4).takeWhile (fun c => c ≠ '>')).length
  else none

/-- Left-to-right non-overlapping scan of the img pattern, as `re.findall`
performs it. Fuelled by the input length, which suffices because every
step consumes at least one character. -/
def findImgSrcsGo : Nat → List Char → List String
  | 0, _ => []
  | _, [] => []
  | Nat.succ n, c :: cs =>
    match imgSrcAttempt (c :: cs) with
    | some (cap, rest) => String.mk cap :: findImgSrcsGo n rest
    | none => findImgSrcsGo n cs

/-- All img-tag `src` attribute values of a fragment, in document order. -/
def findImgSrcs (s : String) : List String :=
  findImgSrcsGo s.toList.length s.toList

/-- One attempt of the mp4 pattern at the head of `s`: the literal `src="`,
then a quoted run that ends in `.mp4` with at least one character before
the extension. -/
def mp4SrcAttempt (s : List Char) : Option String :=
  if ("src=\"".toList).isPrefixOf s then
    match captureQuoted (s.drop 5) with
    | some (cap, _) =>
      if 5 ≤ cap.length ∧ (".mp4".toList).isSuffixOf cap then some (String.mk cap)
      else none
    | none => none
  else none

/-- Leftmost-match scan for the mp4 pattern, as `re.search` performs it. -/
def searchMp4Go : Nat → List Char → Option String
  | 0, _ => none
  | _, [] => none
  | Nat.succ n, c :: cs =>
    match mp4SrcAttempt (c :: cs) with
    | some cap => some cap
    | none => searchMp4Go n cs

/-- First mp4 `src` attribute value of a fragment, if any. -/
def searchMp4 (s : String) : Option String :=
  searchMp4Go s.toList.length s.toList

/-! ## String primitives

`str.endswith` and `str.lower` are implemented over the character list
(the library's `String.endsWith` and `String.toLower` are compiled by
well-founded recursion and do not evaluate inside the kernel); on the
ASCII urls involved the semantics coincide with Python's. -/

/-- Python's `str.endswith`. -/
def strEndsWith (s suffix : String) : Bool :=
  suffix.toList.isSuffixOf s.toList

/-- Python's `str.lower` (ASCII letters, as in the urls involved). -/
def strLower (s : String) : String :=
  String.mk (s.toList.map Char.toLower)

/-! ## First-occurrence deduplication

The code repeats the loop `for u in urls: if u not in clean:
clean.append(u)` (lines 170-174, 227-230, 65-71). `seen` carries the
elements already kept, which are exactly the elements of the output built
so far. -/

/-- Recursive form of the keep-first deduplication loop. -/
def dedupFirstAux (seen : List String) : List String → List String
  | [] => []
  | u :: us =>
    if u ∈ seen then dedupFirstAux seen us
    else u :: dedupFirstAux (u :: seen) us

/-- Keep-first deduplication of a url list. -/
def dedupKeepFirst (xs : List String) : List String :=
  dedupFirstAux [] xs

/-! ## Source post data model (lines 137-241) -/

/-- One media variant inside a structured content block; the `url` key may
be absent. -/
structure Media where
  url : Option String
deriving DecidableEq

/-- One structured content block: a `type` tag and its media variants. -/
structure Block where
  type : String
  media : List Media
deriving DecidableEq

/-- One trail item: an HTML fragment plus the flag marking the root of a
reblog chain. -/
structure TrailItem where
  content_raw : String
  is_root_item : Bool
deriving DecidableEq

/-- One legacy photos entry: the `original_size.url` value when both keys
are present (the code skips entries missing them, lines 165-168). -/
structure Photo where
  original_size_url : Option String
deriving DecidableEq

/-- A source post, restricted to the fields the embedded code reads.
Absent optional string fields are the empty string, matching the
`post.get(key, "")` defaults. -/
structure Post where
  id : String
  timestamp : Nat
  content : List Block
  body : String
  type : String
  photos : List Photo
  video_url : String
  trail : List TrailItem
  player : List String
deriving DecidableEq

/-! ## Media extraction (lines 137-241) -/

/-- Lines 137-144: urls of every media variant of every block tagged
`image`, in order. -/
def extract_images_from_block (blocks : List Block) : List String :=
  blocks.flatMap (fun b =>
    if b.type = "image" then b.media.filterMap (fun m => m.url) else [])

/-- Lines 146-152: the first media url ending in `.mp4` inside a block
tagged `video`. -/
def extract_video_from_block (blocks : List Block) : Option String :=
  blocks.findSome? (fun b =>
    if b.type = "video" then
      b.media.findSome? (fun m =>
        if strEndsWith (m.url.getD "") ".mp4" then m.url else none)
    else none)

/-- Lines 154-168: the concatenation of image-url sources before
deduplication: structured blocks, then the body fragment, then the legacy
photos list (consulted only when the post type is `photo`). -/
def collect_images (post : Post) : List String :=
  extract_images_from_block post.content
    ++ findImgSrcs post.body
    ++ (if post.type = "photo" then
          post.photos.filterMap (fun p => p.original_size_url)
        else [])

/-- Lines 154-176: `extract_images`, the deduplicated collection truncated
to four urls. -/
def extract_images (post : Post) : List String :=
  (dedupKeepFirst (collect_images post)).take 4

/-- Lines 178-200: `extract_video`, trying structured blocks, the legacy
`video_url` field, trail fragments, then player embeds. -/
def extract_video (post : Post) : Option String :=
  match extract_video_from_block post.content with
  | some v => some v
  | none =>
    if strEndsWith post.video_url ".mp4" then some post.video_url
    else
      match post.trail.findSome? (fun t => searchMp4 t.content_raw) with
      | some v => some v
      | none => post.player.findSome? (fun e => searchMp4 e)

/-- Line 215: the gif test applied to candidate urls. -/
def isGifUrl (u : String) : Bool :=
  strEndsWith (strLower u) ".gif"

/-- Lines 221-239: the root-trail fallback block of `resolve_media`
applied to one fragment: img urls deduplicated and truncated to four, the
first gif among them, and the first mp4 src. -/
def root_extract (html : String) : Option String × Option String × List String :=
  let clean := (dedupKeepFirst (findImgSrcs html)).take 4
  (searchMp4 html, clean.find? isGifUrl, clean)

/-- Lines 206-241: `resolve_media`, returning the (video, gif, images)
triple; the empty list models the final `None, None, None` return. -/
def resolve_media (post : Post) : Option String × Option String × List String :=
  let video := extract_video post
  let images := extract_images post
  let gif := images.find? isGifUrl
  if video.isSome || gif.isSome || !images.isEmpty then
    (video, gif, images)
  else
    match post.trail.find? (fun t => t.is_root_item) with
    | some t => root_extract t.content_raw
    | none => (none, none, [])

/-- The media selection actually published for one post. -/
inductive MediaCandidate
  | video : String → MediaCandidate
  | gif : String → MediaCandidate
  | images : List String → MediaCandidate
deriving DecidableEq

/-- Lines 498-534: the branch order of `main` over a resolved triple —
video first, then gif, then a non-empty image list. -/
def dispatch_triple :
    Option String × Option String × List String → Option MediaCandidate
  | (some v, _, _) => some (MediaCandidate.video v)
  | (none, some g, _) => some (MediaCandidate.gif g)
  | (none, none, imgs) =>
    if imgs.isEmpty then none else some (MediaCandidate.images imgs)

/-- The candidate `main` publishes for a post, if any. -/
def dispatch_media (post : Post) : Option MediaCandidate :=
  dispatch_triple (resolve_media post)

/-! ## Size negotiation (lines 257-358)

Each external invocation is modelled together with the temporary files it
leaves on disk at return, as a `result × remaining-files` pair: the code
creates its temporary files with `delete=False` and contains no removal
call, so the created files are exactly the remaining ones. -/

/-- Lines 308-315: the fixed ImageMagick argument list of
`shrink_image_if_needed` — a single scale bound and a single quality. -/
def convert_args : List String :=
  ["convert", "-resize", "1600x1600>", "-strip", "-quality", "85"]

/-- Lines 264-275: the ffmpeg argument list of `convert_gif_to_mp4`. -/
def ffmpeg_gif_args : List String :=
  ["ffmpeg", "-y", "-movflags", "faststart",
   "-vf", "scale=-1:720:force_original_aspect_ratio=decrease",
   "-pix_fmt", "yuv420p", "-vcodec", "libx264", "-preset", "veryfast",
   "-an"]

/-- Lines 342-350: the ffmpeg argument list of the video re-encode inside
`post_to_bluesky_video`. -/
def ffmpeg_video_args : List String :=
  ["ffmpeg", "-y", "-movflags", "faststart", "-pix_fmt", "yuv420p",
   "-preset", "veryfast",
   "-vf", "scale=-1:720:force_original_aspect_ratio=decrease", "-an"]

/-- Lines 257-291: `convert_gif_to_mp4` with its on-disk footprint. The
input gif is written to a temporary file first; on encoder failure only
that file exists, on success the output file exists as well; the produced
video is rejected (None) when it still exceeds 900000 bytes. No path
removes either file. -/
def convert_gif_to_mp4_fs (run : Runner) (gif_bytes : Bytes) :
    Option Bytes × List String :=
  match run ffmpeg_gif_args gif_bytes with
  | none => (none, ["tmp.gif"])
  | some data =>
    if 900000 < data.size then (none, ["tmp.gif", "tmp.mp4"])
    else (some data, ["tmp.gif", "tmp.mp4"])

/-- The value returned by `convert_gif_to_mp4`. -/
def convert_gif_to_mp4 (run : Runner) (gif_bytes : Bytes) : Option Bytes :=
  (convert_gif_to_mp4_fs run gif_bytes).1

/-- Lines 297-324: `shrink_image_if_needed` with its on-disk footprint.
Inputs at or below 950000 bytes are returned untouched; otherwise the
image is re-encoded once via the fixed `convert_args` and the output is
returned without any size check; on encoder failure the original bytes
are returned. No path removes the temporary files. -/
def shrink_image_if_needed_fs (run : Runner) (img_bytes : Bytes) :
    Bytes × List String :=
  if img_bytes.size ≤ 950000 then (img_bytes, [])
  else
    match run convert_args img_bytes with
    | some data => (data, ["tmp.jpg", "tmp.jpg_small.jpg"])
    | none => (img_bytes, ["tmp.jpg"])

/-- The value returned by `shrink_image_if_needed`. -/
def shrink_image_if_needed (run : Runner) (img_bytes : Bytes) : Bytes :=
  (shrink_image_if_needed_fs run img_bytes).1

/-- Lines 330-358: the size-negotiation portion of
`post_to_bluesky_video`, before the upload, with its on-disk footprint.
Payloads at or below 900000 bytes pass through; larger ones are
re-encoded once and the output is returned without a size re-check; a
failed re-encode skips the video (`none`). No path removes the temporary
files. -/
def video_fit_fs (run : Runner) (data : Bytes) :
    Option Bytes × List String :=
  if data.size ≤ 900000 then (some data, [])
  else
    match run ffmpeg_video_args data with
    | some out => (some out, ["tmp.mp4", "tmp.mp4_small.mp4"])
    | none => (none, ["tmp.mp4"])

/-- The bytes the video path hands to the uploader, if any. -/
def video_fit (run : Runner) (data : Bytes) : Option Bytes :=
  (video_fit_fs run data).1

/-- Declared content kind of a payload entering negotiation. -/
inductive Kind
  | image
  | gif
  | video
deriving DecidableEq

/-- Outcome of size negotiation: a payload with its (possibly changed)
kind, or a definitive failure. -/
inductive FitResult
  | ok : Bytes → Kind → FitResult
  | fail : FitResult
deriving DecidableEq

/-- The size negotiator assembled from the three code paths: images via
`shrink_image_if_needed` (lines 297-324, which cannot fail), gifs via the
size guard of `post_to_bluesky_gif` (lines 399-404) feeding
`convert_gif_to_mp4` (lines 257-291, kind changes to video on success),
and videos via the re-encode branch of `post_to_bluesky_video`
(lines 330-358). -/
def fit (run : Runner) (b : Bytes) : Kind → FitResult
  | Kind.image => FitResult.ok (shrink_image_if_needed run b) Kind.image
  | Kind.gif =>
    if b.size ≤ 900000 then FitResult.ok b Kind.gif
    else
      match convert_gif_to_mp4 run b with
      | some v => FitResult.ok v Kind.video
      | none => FitResult.fail
  | Kind.video =>
    match video_fit run b with
    | some d => FitResult.ok d Kind.video
    | none => FitResult.fail

/-! ## Publishing and the main loop (lines 330-432, 468-541) -/

/-- One publish-record invocation: the embed it carries. -/
inductive Embed
  | video : Bytes → Embed
  | images : List Bytes → Embed
deriving DecidableEq

/-- Lines 330-371: the publish-record calls `post_to_bluesky_video` makes
(none when the re-encode fails and the function returns early). -/
def post_to_bluesky_video (run : Runner) (data : Bytes) : List Embed :=
  match video_fit run data with
  | none => []
  | some d => [Embed.video d]

/-- Lines 373-392: the publish-record calls `post_to_bluesky_images`
makes: one, carrying every fetched image after the shrink pass. -/
def post_to_bluesky_images (run : Runner) (datas : List Bytes) : List Embed :=
  [Embed.images (datas.map (fun d => shrink_image_if_needed run d))]

/-- Lines 394-432: the publish-record calls `post_to_bluesky_gif` makes:
an oversized gif is transcoded and published as a video, a failed
transcode publishes nothing (the function returns None before the create
call), a small gif is published as an image. -/
def post_to_bluesky_gif (run : Runner) (gif_data : Bytes) : List Embed :=
  if 900000 < gif_data.size then
    match convert_gif_to_mp4 run gif_data with
    | none => []
    | some mp4 => [Embed.video mp4]
  else [Embed.images [gif_data]]

/-- The external collaborators of the main loop: the process oracle, the
byte fetch, and the ids already found on the destination feed. -/
structure Env where
  run : Runner
  fetch : String → Bytes
  bsky_ids : List String

/-- Lines 500-534: the publish calls made for one resolved candidate. -/
def publish_candidate (env : Env) : MediaCandidate → List Embed
  | MediaCandidate.video url => post_to_bluesky_video env.run (env.fetch url)
  | MediaCandidate.gif url => post_to_bluesky_gif env.run (env.fetch url)
  | MediaCandidate.images urls =>
    post_to_bluesky_images env.run (urls.map env.fetch)

/-- Lines 485-538: the handling of one post inside the main loop — skip
when already recorded, otherwise resolve, publish, and append the id to
the processed record whether publishing succeeded, failed, or nothing was
postable. Returns the publish calls made and the updated record. -/
def step_post (env : Env) (posted_ids : List String) (post : Post) :
    List Embed × List String :=
  if post.id ∈ posted_ids ∨ post.id ∈ env.bsky_ids then ([], posted_ids)
  else
    match dispatch_media post with
    | some c => (publish_candidate env c, posted_ids ++ [post.id])
    | none => ([], posted_ids ++ [post.id])

/-- Lines 65-73: the id-deduplication of `get_recent_tumblr_posts`. -/
def clean_posts_aux (seen : List String) : List Post → List Post
  | [] => []
  | p :: ps =>
    if p.id ∈ seen then clean_posts_aux seen ps
    else p :: clean_posts_aux (p.id :: seen) ps

/-- The post list as returned by `get_recent_tumblr_posts`. -/
def clean_posts (posts : List Post) : List Post :=
  clean_posts_aux [] posts

/-- Lines 483-485: the iteration order of the main loop — posts sorted
ascending by timestamp, first thirty taken. -/
def main_order (posts : List Post) : List Post :=
  ((clean_posts posts).mergeSort
    (fun a b => decide (a.timestamp ≤ b.timestamp))).take 30

/-- Lines 468-541: the whole main loop over the fetched posts, threading
the processed-id record and accumulating the publish calls in order. -/
def run_main (env : Env) (posted_ids : List String) (posts : List Post) :
    List Embed × List String :=
  (main_order posts).foldl
    (fun acc p =>
      let r := step_post env acc.2 p
      (acc.1 ++ r.1, r.2))
    ([], posted_ids)

/-! ## Definitions taken from the spec's words, for comparison -/

/-- Modelled from the spec: the image-url candidate list claim C3
describes — exactly four sources concatenated in the order structured
image blocks, then trail HTML fragments, then the body fragment, then the
legacy photos list. Compared against `collect_images`, which the source
actually computes. -/
def collect_images_spec (post : Post) : List String :=
  extract_images_from_block post.content
    ++ post.trail.flatMap (fun t => findImgSrcs t.content_raw)
    ++ findImgSrcs post.body
    ++ (if post.type = "photo" then
          post.photos.filterMap (fun p => p.original_size_url)
        else [])

/-! ## Helper lemmas -/

/-- The keep-first deduplication loop yields a sublist of its input. -/
theorem dedupFirstAux_sublist (seen xs : List String) :
    (dedupFirstAux seen xs).Sublist xs := by
  induction xs generalizing seen with
  | nil => simp [dedupFirstAux]
  | cons u us ih =>
    by_cases h : u ∈ seen
    · simp only [dedupFirstAux, if_pos h]
      exact (ih seen).cons u
    · simp only [dedupFirstAux, if_neg h]
      exact (ih (u :: seen)).cons₂ u

/-- No element kept by the deduplication loop was already seen. -/
theorem mem_dedupFirstAux_not_seen (seen xs : List String) :
    ∀ a ∈ dedupFirstAux seen xs, a ∉ seen := by
  induction xs generalizing seen with
  | nil => simp [dedupFirstAux]
  | cons u us ih =>
    by_cases h : u ∈ seen
    · simpa only [dedupFirstAux, if_pos h] using ih seen
    · simp only [dedupFirstAux, if_neg h]
      intro a ha
      rcases List.mem_cons.mp ha with rfl | ha2
      · exact h
      · exact fun hs => ih (u :: seen) a ha2 (List.mem_cons_of_mem u hs)

/-- The keep-first deduplication loop yields a duplicate-free list. -/
theorem dedupFirstAux_nodup (seen xs : List String) :
    (dedupFirstAux seen xs).Nodup := by
  induction xs generalizing seen with
  | nil => simp [dedupFirstAux]
  | cons u us ih =>
    by_cases h : u ∈ seen
    · simpa only [dedupFirstAux, if_pos h] using ih seen
    · simp only [dedupFirstAux, if_neg h, List.nodup_cons]
      refine ⟨fun hu => ?_, ih (u :: seen)⟩
      exact mem_dedupFirstAux_not_seen (u :: seen) us u hu (List.mem_cons_self u seen)

/-- Keep-first deduplication is a duplicate-free sublist of its input. -/
theorem dedupKeepFirst_nodup (xs : List String) : (dedupKeepFirst xs).Nodup :=
  dedupFirstAux_nodup [] xs

/-- Keep-first deduplication preserves the input order. -/
theorem dedupKeepFirst_sublist (xs : List String) :
    (dedupKeepFirst xs).Sublist xs :=
  dedupFirstAux_sublist [] xs

/-- Characterisation of the branch order: `main` publishes nothing for a
triple exactly when all three components are empty. -/
theorem dispatch_triple_eq_none
    (x : Option String × Option String × List String) :
    dispatch_triple x = none ↔ x.1 = none ∧ x.2.1 = none ∧ x.2.2 = [] := by
  obtain ⟨v, g, l⟩ := x
  cases v with
  | some a => simp [dispatch_triple]
  | none =>
    cases g with
    | some a => simp [dispatch_triple]
    | none => cases l <;> simp [dispatch_triple]

/-- A payload already at or below the image safety bound passes the
shrink step untouched. -/
theorem shrink_of_le (run : Runner) (b : Bytes) (h : b.size ≤ 950000) :
    shrink_image_if_needed run b = b := by
  simp [shrink_image_if_needed, shrink_image_if_needed_fs, h]

/-- An oversized payload is re-encoded once via the fixed convert
arguments and the encoder output is passed through without a size check. -/
theorem shrink_of_gt (run : Runner) (b : Bytes) (h : 950000 < b.size) :
    shrink_image_if_needed run b = (run convert_args b).getD b := by
  rw [shrink_image_if_needed, shrink_image_if_needed_fs, if_neg (by omega)]
  cases run convert_args b <;> simp

/-- The gif transcode only ever returns a payload at or below the video
ceiling: the produced file size is re-checked (line 286). -/
theorem convert_gif_size_le (run : Runner) (b d : Bytes)
    (h : convert_gif_to_mp4 run b = some d) : d.size ≤ 900000 := by
  rw [convert_gif_to_mp4, convert_gif_to_mp4_fs] at h
  cases hr : run ffmpeg_gif_args b with
  | none => rw [hr] at h; simp at h
  | some x =>
    rw [hr] at h
    by_cases hx : 900000 < x.size
    · simp [hx] at h
    · simp [hx] at h
      subst h
      omega

/-- A payload already at or below the video ceiling passes the video path
untouched. -/
theorem video_fit_of_le (run : Runner) (b : Bytes) (h : b.size ≤ 900000) :
    video_fit run b = some b := by
  simp [video_fit, video_fit_fs, h]

/-- An oversized video payload is re-encoded once and the encoder result
is passed through as is: no size re-check happens on this path. -/
theorem video_fit_of_gt (run : Runner) (b : Bytes) (h : 900000 < b.size) :
    video_fit run b = run ffmpeg_video_args b := by
  rw [video_fit, video_fit_fs, if_neg (by omega)]
  cases run ffmpeg_video_args b <;> simp

/-! ## Concrete posts used as inputs of witnesses and counterexamples -/

/-- A post whose only media urls sit in the body and in a (non-root) trail
fragment. -/
def trailBodyPost : Post :=
  ⟨"10", 0, [], "<img src=\"a\">", "text", [], "",
   [⟨"<img src=\"t\">", false⟩], []⟩

/-- A post whose body repeats the same image url five times. -/
def duplicateBodyPost : Post :=
  ⟨"11", 0, [],
   "<img src=\"a\"><img src=\"a\"><img src=\"a\"><img src=\"a\"><img src=\"a\">",
   "text", [], "", [], []⟩

/-- A post whose body carries five distinct image urls. -/
def fiveImagePost : Post :=
  ⟨"12", 0, [],
   "<img src=\"a\"><img src=\"b\"><img src=\"c\"><img src=\"d\"><img src=\"e\">",
   "text", [], "", [], []⟩

/-! ## C3 — image sources of the candidate list -/

/-- Claim C3 fails on the code: trail fragments are not among the image
sources of the candidate list. At this post the claimed four-source
concatenation contains the trail url, the code's collection does not. -/
theorem collect_images_trail_counterexample :
    collect_images trailBodyPost = ["a"]
    ∧ collect_images_spec trailBodyPost = ["t", "a"]
    ∧ collect_images trailBodyPost ≠ collect_images_spec trailBodyPost :=
  ⟨by decide, by decide, by decide⟩

/-- Claim C3 (amended): for every post that yields no video, the candidate
image-url list before deduplication and truncation is the concatenation
of exactly three sources in this order — structured image content blocks,
then the body HTML fragment, then the legacy photos list — and the trail
fragments contribute nothing to it (they are consulted only by the
reblog fallback of `resolve_media`). -/
theorem collect_images_three_sources (post : Post) (tr : List TrailItem) :
    collect_images post =
      extract_images_from_block post.content
        ++ findImgSrcs post.body
        ++ (if post.type = "photo" then
              post.photos.filterMap (fun p => p.original_size_url)
            else [])
    ∧ collect_images { post with trail := tr } = collect_images post :=
  ⟨rfl, rfl⟩

/-! ## C6 — deduplication and truncation to four urls -/

/-- Claim C6 fails on the code: a collected list longer than four does not
guarantee four returned urls, because deduplication happens before the
truncation. Five copies of one url collapse to a single returned url. -/
theorem extract_images_duplicates_counterexample :
    4 < (collect_images duplicateBodyPost).length
    ∧ extract_images duplicateBodyPost = ["a"]
    ∧ (extract_images duplicateBodyPost).length ≠ 4 :=
  ⟨by decide, by decide, by decide⟩

/-- Claim C6 (amended): for every post whose collected image-url list
still has more than four entries after first-occurrence deduplication,
`extract_images` returns exactly four urls, duplicate-free, in original
first-occurrence order (a sublist of the deduplicated collection and of
the raw collection); when the collection exceeds four entries only
because of duplicates, fewer urls are returned. -/
theorem extract_images_truncation (post : Post)
    (h : 4 < (dedupKeepFirst (collect_images post)).length) :
    (extract_images post).length = 4
    ∧ (extract_images post).Nodup
    ∧ (extract_images post).Sublist (dedupKeepFirst (collect_images post))
    ∧ (extract_images post).Sublist (collect_images post) := by
  refine ⟨?_, ?_, ?_, ?_⟩
  · rw [extract_images, List.length_take]
    omega
  · exact ((List.take_sublist 4 _).nodup (dedupKeepFirst_nodup _))
  · exact List.take_sublist 4 _
  · exact (List.take_sublist 4 _).trans (dedupKeepFirst_sublist _)

/-- Witness for the amended C6 at a post with five distinct body urls. -/
theorem extract_images_truncation_witness :
    4 < (dedupKeepFirst (collect_images fiveImagePost)).length
    ∧ (extract_images fiveImagePost).length = 4
    ∧ extract_images fiveImagePost = ["a", "b", "c", "d"] :=
  ⟨by decide, (extract_images_truncation fiveImagePost (by decide)).1, by decide⟩

/-! ## C4 — gif promotion and media-kind priority -/

/-- A post carrying one gif url and one plain image url in its body. -/
def gifImagePost : Post :=
  ⟨"13", 0, [], "<img src=\"x.gif\"><img src=\"y.png\">", "text", [], "",
   [], []⟩

/-- Claim C4: when the post's own image list contains a gif-suffixed url,
`main` never publishes a plain image set for it; a resolved video takes
priority over everything, and otherwise the first gif of the image list
is published as a `Gif` candidate. -/
theorem gif_priority_over_images (post : Post) (g : String)
    (hmem : g ∈ extract_images post) (hgif : isGifUrl g = true) :
    (∀ urls, dispatch_media post ≠ some (MediaCandidate.images urls))
    ∧ (∀ v, extract_video post = some v →
        dispatch_media post = some (MediaCandidate.video v))
    ∧ (extract_video post = none →
        ∃ u, (extract_images post).find? isGifUrl = some u
          ∧ dispatch_media post = some (MediaCandidate.gif u)) := by
  have hne : (extract_images post).find? isGifUrl ≠ none := by
    intro h0
    exact absurd hgif (by simpa using List.find?_eq_none.mp h0 g hmem)
  obtain ⟨u, hu⟩ := Option.ne_none_iff_exists.mp hne
  have hu := hu.symm
  have hres : resolve_media post =
      (extract_video post, some u, extract_images post) := by
    simp only [resolve_media]
    rw [hu]
    simp
  refine ⟨?_, ?_, ?_⟩
  · intro urls hcontra
    rw [dispatch_media, hres] at hcontra
    cases hv : extract_video post with
    | some v => rw [hv] at hcontra; simp [dispatch_triple] at hcontra
    | none => rw [hv] at hcontra; simp [dispatch_triple] at hcontra
  · intro v hv
    rw [dispatch_media, hres, hv]
    rfl
  · intro hv
    refine ⟨u, hu, ?_⟩
    rw [dispatch_media, hres, hv]
    rfl

/-- Witness for C4 at a post with one gif and one plain image url. -/
theorem gif_priority_over_images_witness :
    "x.gif" ∈ extract_images gifImagePost
    ∧ isGifUrl "x.gif" = true
    ∧ dispatch_media gifImagePost ≠ some (MediaCandidate.images ["x.gif", "y.png"]) :=
  ⟨by decide, by decide,
    (gif_priority_over_images gifImagePost "x.gif" (by decide) (by decide)).1
      ["x.gif", "y.png"]⟩

/-! ## C5 — reblog fallback to the root trail fragment -/

/-- A reblog-shaped post with no own media and a root trail fragment
holding one plain image. -/
def rootOnlyPost : Post :=
  ⟨"14", 0, [], "", "text", [], "", [⟨"<img src=\"r.png\">", true⟩], []⟩

/-- Claim C5: when a post's own extraction yields no video and no images
(hence no gif), `resolve_media` re-runs the extraction against the first
root-flagged trail item's fragment alone; a root fragment scanning to a
single non-gif img url and no mp4 url yields an `Images` candidate of
length one; and nothing is published only when that root fragment also
yields nothing (respectively when no root item exists at all). -/
theorem reblog_root_fallback (post : Post)
    (hv : extract_video post = none) (hi : extract_images post = []) :
    (∀ t, post.trail.find? (fun x => x.is_root_item) = some t →
      resolve_media post = root_extract t.content_raw
      ∧ (∀ u, findImgSrcs t.content_raw = [u] → isGifUrl u = false →
          searchMp4 t.content_raw = none →
          dispatch_media post = some (MediaCandidate.images [u]))
      ∧ (dispatch_media post = none →
          searchMp4 t.content_raw = none
          ∧ (dedupKeepFirst (findImgSrcs t.content_raw)).take 4 = []))
    ∧ (post.trail.find? (fun x => x.is_root_item) = none →
        dispatch_media post = none) := by
  constructor
  · intro t ht
    have hres : resolve_media post = root_extract t.content_raw := by
      simp [resolve_media, hv, hi, ht]
    refine ⟨hres, ?_, ?_⟩
    · intro u hone hgif hmp4
      rw [dispatch_media, hres]
      simp only [root_extract, hone, hmp4]
      simp [dedupKeepFirst, dedupFirstAux, List.find?, hgif, dispatch_triple]
    · intro hnone
      rw [dispatch_media, hres] at hnone
      have h3 := (dispatch_triple_eq_none _).mp hnone
      simp only [root_extract] at h3
      exact ⟨h3.1, h3.2.2⟩
  · intro ht
    have hres : resolve_media post = (none, none, []) := by
      simp [resolve_media, hv, hi, ht]
    rw [dispatch_media, hres]
    rfl

/-- Witness for C5 at a reblog post whose root fragment holds one image. -/
theorem reblog_root_fallback_witness :
    extract_video rootOnlyPost = none
    ∧ extract_images rootOnlyPost = []
    ∧ dispatch_media rootOnlyPost = some (MediaCandidate.images ["r.png"]) := by
  have h := reblog_root_fallback rootOnlyPost (by decide) (by decide)
  have h2 := (h.1 ⟨"<img src=\"r.png\">", true⟩ (by decide)).2.1 "r.png"
    (by decide) (by decide) (by decide)
  exact ⟨by decide, by decide, h2⟩

/-! ## C1 — the image size negotiation has no scale/quality ladder -/

/-- Claim C1 fails on the code: the image path never iterates a
scale-times-quality cross product and has no failure exit. At an
oversized input whose single fixed re-encode still exceeds the safety
target, `shrink_image_if_needed` returns the oversized re-encoded bytes
rather than a conforming result or a failure. -/
theorem shrink_no_ladder_counterexample :
    950000 < (Bytes.mk 1000000 0).size
    ∧ shrink_image_if_needed (fun _ _ => some (Bytes.mk 960000 1))
        (Bytes.mk 1000000 0) = Bytes.mk 960000 1
    ∧ 950000 < (shrink_image_if_needed (fun _ _ => some (Bytes.mk 960000 1))
        (Bytes.mk 1000000 0)).size :=
  ⟨by decide, by decide, by decide⟩

/-- Claim C1 (amended): for every image asset whose byte size exceeds the
safety target, `shrink_image_if_needed` performs exactly one re-encode at
the single fixed parameter pair of `convert_args` (scale bound 1600x1600,
quality 85) and returns the encoder's output without checking its size;
if the encoder invocation fails it returns the original oversized bytes;
inputs at or below the target are returned unchanged. -/
theorem shrink_single_attempt (run : Runner) (b : Bytes) :
    (b.size ≤ 950000 → shrink_image_if_needed run b = b)
    ∧ (950000 < b.size →
        shrink_image_if_needed run b = (run convert_args b).getD b) :=
  ⟨shrink_of_le run b, shrink_of_gt run b⟩

/-- Witness for the amended C1: a conforming input passes unchanged, and
an oversized input comes back as the single re-encode's output. -/
theorem shrink_single_attempt_witness :
    (Bytes.mk 100 0).size ≤ 950000
    ∧ shrink_image_if_needed (fun _ _ => none) (Bytes.mk 100 0) = Bytes.mk 100 0
    ∧ 950000 < (Bytes.mk 1000000 0).size
    ∧ shrink_image_if_needed (fun _ _ => some (Bytes.mk 5 9)) (Bytes.mk 1000000 0)
        = ((fun (_ : List String) (_ : Bytes) => some (Bytes.mk 5 9))
            convert_args (Bytes.mk 1000000 0)).getD (Bytes.mk 1000000 0) :=
  ⟨by decide,
   (shrink_single_attempt (fun _ _ => none) (Bytes.mk 100 0)).1 (by decide),
   by decide,
   (shrink_single_attempt (fun _ _ => some (Bytes.mk 5 9)) (Bytes.mk 1000000 0)).2
     (by decide)⟩

/-! ## C2 — what size negotiation guarantees, per path -/

/-- Claim C2 fails on the code: the video path does not re-check the size
after its single re-encode. With an encoder whose output is still above
the ceiling, the video negotiation returns the oversized bytes instead of
failing. -/
theorem video_fit_over_ceiling_counterexample :
    900000 < (Bytes.mk 1000000 0).size
    ∧ video_fit (fun _ _ => some (Bytes.mk 950000 1)) (Bytes.mk 1000000 0)
        = some (Bytes.mk 950000 1)
    ∧ 900000 < (Bytes.mk 950000 1).size :=
  ⟨by decide, by decide, by decide⟩

/-- Claim C2 (amended): only the gif path guarantees its output is at or
below the 900000-byte ceiling, because `convert_gif_to_mp4` re-checks the
produced file once and fails otherwise; the video path passes an input at
or below the ceiling through unchanged but hands an oversized input's
single re-encode result on without any size re-check, so it can return
over-ceiling bytes (the image path likewise returns unchecked output). -/
theorem negotiation_ceiling_amended (run : Runner) (b : Bytes) :
    (∀ d, convert_gif_to_mp4 run b = some d → d.size ≤ 900000)
    ∧ (b.size ≤ 900000 → video_fit run b = some b)
    ∧ (900000 < b.size → video_fit run b = run ffmpeg_video_args b) :=
  ⟨fun d h => convert_gif_size_le run b d h,
   video_fit_of_le run b,
   video_fit_of_gt run b⟩

/-- Witness for the amended C2: the gif re-check rejects an oversized
transcode, a conforming video is untouched, an oversized one is handed to
the encoder. -/
theorem negotiation_ceiling_amended_witness :
    (Bytes.mk 100 3).size ≤ 900000
    ∧ video_fit (fun _ _ => none) (Bytes.mk 100 3) = some (Bytes.mk 100 3)
    ∧ 900000 < (Bytes.mk 1200000 0).size
    ∧ video_fit (fun _ _ => some (Bytes.mk 77 5)) (Bytes.mk 1200000 0)
        = ((fun (_ : List String) (_ : Bytes) => some (Bytes.mk 77 5))
            ffmpeg_video_args (Bytes.mk 1200000 0)) :=
  ⟨by decide,
   (negotiation_ceiling_amended (fun _ _ => none) (Bytes.mk 100 3)).2.1 (by decide),
   by decide,
   (negotiation_ceiling_amended (fun _ _ => some (Bytes.mk 77 5))
     (Bytes.mk 1200000 0)).2.2 (by decide)⟩

/-! ## C7 — idempotence of the size negotiation -/

/-- Claim C7 fails on the code: because the image path does not re-check
its output, negotiating twice can differ from negotiating once. With an
encoder whose first output is still oversized, the second negotiation
re-encodes again and produces different bytes. -/
theorem fit_idempotence_counterexample :
    fit (fun _ b => if b.tag = 0 then some (Bytes.mk 960000 1)
          else some (Bytes.mk 100 2))
        (Bytes.mk 1000000 0) Kind.image
      = FitResult.ok (Bytes.mk 960000 1) Kind.image
    ∧ fit (fun _ b => if b.tag = 0 then some (Bytes.mk 960000 1)
          else some (Bytes.mk 100 2))
        (Bytes.mk 960000 1) Kind.image
      ≠ FitResult.ok (Bytes.mk 960000 1) Kind.image :=
  ⟨by decide, by decide⟩

/-- Claim C7 (amended): any input already at or below the 900000-byte
ceiling is returned unchanged by `fit`, and negotiation is idempotent
whenever the first negotiation's output lands at or below that ceiling
(carrying the gif-to-video kind change through); unconditional idempotence
fails because the image and video paths never re-check their output
size. -/
theorem fit_conditional_idempotent (run : Runner) (b : Bytes) (k : Kind) :
    (b.size ≤ 900000 → fit run b k = FitResult.ok b k)
    ∧ (∀ c k2, fit run b k = FitResult.ok c k2 → c.size ≤ 900000 →
        fit run c k2 = FitResult.ok c k2) := by
  constructor
  · intro hb
    cases k with
    | image =>
      rw [fit, shrink_of_le run b (by omega)]
    | gif => rw [fit, if_pos hb]
    | video => rw [fit, video_fit_of_le run b hb]
  · intro c k2 hfit hc
    cases k with
    | image =>
      rw [fit] at hfit
      cases hfit
      rw [fit, shrink_of_le run (shrink_image_if_needed run b) (by omega)]
    | gif =>
      rw [fit] at hfit
      by_cases hb : b.size ≤ 900000
      · rw [if_pos hb] at hfit
        cases hfit
        rw [fit, if_pos hc]
      · rw [if_neg hb] at hfit
        cases hg : convert_gif_to_mp4 run b with
        | none => rw [hg] at hfit; cases hfit
        | some v =>
          rw [hg] at hfit
          cases hfit
          rw [fit, video_fit_of_le run c hc]
    | video =>
      rw [fit] at hfit
      cases hv : video_fit run b with
      | none => rw [hv] at hfit; cases hfit
      | some d =>
        rw [hv] at hfit
        cases hfit
        rw [fit, video_fit_of_le run c hc]

/-- Witness for the amended C7: a conforming payload is a fixed point of
negotiation, and a successful first negotiation with conforming output is
not changed by a second one. -/
theorem fit_conditional_idempotent_witness :
    (Bytes.mk 500 4).size ≤ 900000
    ∧ fit (fun _ _ => none) (Bytes.mk 500 4) Kind.gif
        = FitResult.ok (Bytes.mk 500 4) Kind.gif
    ∧ fit (fun _ _ => some (Bytes.mk 800 6)) (Bytes.mk 1200000 0) Kind.gif
        = FitResult.ok (Bytes.mk 800 6) Kind.video
    ∧ fit (fun _ _ => some (Bytes.mk 800 6)) (Bytes.mk 800 6) Kind.video
        = FitResult.ok (Bytes.mk 800 6) Kind.video :=
  ⟨by decide,
   (fit_conditional_idempotent (fun _ _ => none) (Bytes.mk 500 4) Kind.gif).1
     (by decide),
   by decide,
   (fit_conditional_idempotent (fun _ _ => some (Bytes.mk 800 6))
       (Bytes.mk 1200000 0) Kind.gif).2
     (Bytes.mk 800 6) Kind.video (by decide) (by decide)⟩

/-! ## C8 — failed gif transcode: no publish, id still recorded -/

/-- Claim C8: when the gif fetched for a post is over the ceiling and its
transcode to video fails, the main loop makes no publish-record call for
that post, yet appends the post id to the processed record, so a later
pass over the same post is skipped outright. -/
theorem gif_failure_marks_processed (env : Env) (posted_ids : List String)
    (post : Post) (url : String)
    (h1 : post.id ∉ posted_ids) (h2 : post.id ∉ env.bsky_ids)
    (hd : dispatch_media post = some (MediaCandidate.gif url))
    (hbig : 900000 < (env.fetch url).size)
    (hfail : convert_gif_to_mp4 env.run (env.fetch url) = none) :
    (step_post env posted_ids post).1 = []
    ∧ post.id ∈ (step_post env posted_ids post).2
    ∧ step_post env (step_post env posted_ids post).2 post
        = ([], (step_post env posted_ids post).2) := by
  have hstep : step_post env posted_ids post = ([], posted_ids ++ [post.id]) := by
    rw [step_post, if_neg (not_or.mpr ⟨h1, h2⟩), hd]
    simp [publish_candidate, post_to_bluesky_gif, hbig, hfail]
  refine ⟨by rw [hstep], by rw [hstep]; simp, ?_⟩
  rw [hstep, step_post, if_pos (Or.inl (by simp))]

/-- A post carrying exactly one gif url in its body. -/
def gifOnlyPost : Post :=
  ⟨"15", 0, [], "<img src=\"g.gif\">", "text", [], "", [], []⟩

/-- An environment whose external encoder always fails and whose fetch
returns an oversized payload. -/
def failEnv : Env :=
  ⟨fun _ _ => none, fun _ => Bytes.mk 1000000 0, []⟩

/-- Witness for C8: an oversized gif whose transcode fails is abandoned
without a publish call, recorded as processed, and skipped next time. -/
theorem gif_failure_marks_processed_witness :
    (step_post failEnv [] gifOnlyPost).1 = []
    ∧ "15" ∈ (step_post failEnv [] gifOnlyPost).2
    ∧ step_post failEnv (step_post failEnv [] gifOnlyPost).2 gifOnlyPost
        = ([], (step_post failEnv [] gifOnlyPost).2) := by
  have h := gif_failure_marks_processed failEnv [] gifOnlyPost "g.gif"
    (by decide) (by decide) (by decide) (by decide) (by decide)
  exact ⟨h.1, h.2.1, h.2.2⟩

/-! ## C9 — temporary files are never removed -/

/-- Claim C9 is contradicted by the code (the spec's cleanup requirement
is the evident intent, the missing removal a slip): every temporary file
is created with delete equal to False and no removal call exists anywhere,
so the temporary input file — and, when the encoder ran, the output
file — remains on disk on every exit path of all three external
invocations. Both the failure and the success path of each invocation are
evaluated here at an oversized input. -/
theorem temp_files_remain :
    (convert_gif_to_mp4_fs (fun _ _ => none) (Bytes.mk 1200000 0)).2
        = ["tmp.gif"]
    ∧ (convert_gif_to_mp4_fs (fun _ _ => some (Bytes.mk 100 1))
        (Bytes.mk 1200000 0)).2 = ["tmp.gif", "tmp.mp4"]
    ∧ (shrink_image_if_needed_fs (fun _ _ => none) (Bytes.mk 1200000 0)).2
        = ["tmp.jpg"]
    ∧ (shrink_image_if_needed_fs (fun _ _ => some (Bytes.mk 100 1))
        (Bytes.mk 1200000 0)).2 = ["tmp.jpg", "tmp.jpg_small.jpg"]
    ∧ (video_fit_fs (fun _ _ => none) (Bytes.mk 1200000 0)).2 = ["tmp.mp4"]
    ∧ (video_fit_fs (fun _ _ => some (Bytes.mk 100 1))
        (Bytes.mk 1200000 0)).2 = ["tmp.mp4", "tmp.mp4_small.mp4"] :=
  ⟨by decide, by decide, by decide, by decide, by decide, by decide⟩

/-! ## C10 — posts are processed oldest first -/

/-- Claim C10: whatever order the post source returned them in, the posts
the main loop iterates (and therefore publishes) follow ascending
timestamps. -/
theorem posts_processed_in_timestamp_order (posts : List Post) :
    ((main_order posts).map Post.timestamp).Sorted (fun a b => a ≤ b) := by
  have hs := @List.sorted_mergeSort Post
    (fun a b => decide (a.timestamp ≤ b.timestamp))
    (fun a b c hab hbc => by
      simp only [decide_eq_true_eq] at hab hbc ⊢
      omega)
    (fun a b => by
      simp only [Bool.or_eq_true, decide_eq_true_eq]
      omega)
    (clean_posts posts)
  have hs2 : ((clean_posts posts).mergeSort
      (fun a b => decide (a.timestamp ≤ b.timestamp))).Pairwise
      (fun a b : Post => a.timestamp ≤ b.timestamp) :=
    hs.imp fun h => of_decide_eq_true h
  have ht := List.Pairwise.sublist (List.take_sublist 30 _) hs2
  unfold main_order
  exact List.pairwise_map.mpr ht
